import Mathlib

/-!
Shallow embedding of the account engine (account package: account orchestrator,
deposit allocator, default input selection, incoming-consistency check, send
pipeline) together with theorems checking the natural-language specification
against it.  Collaborators (store, ledger client, signer, seed provider, clock)
are modelled as environment records whose fields hold the results the
collaborator call would produce; `Except String` models a fallible collaborator
call, `Option String` a call that either succeeds or fails with a message.
Machine integers (uint64 balances, key indices) are modelled as `Nat`;
time instants as `Int` seconds.
-/

namespace IotaAccount

/-- Deterministic address derivation (the Signer collaborator,
`address.GenerateAddress(seed, index, securityLevel, withChecksum)`).
The engine only uses that the derivation is a pure deterministic function of
seed, key index and security level; the hashing internals are out of scope, so
an address is modelled as the derivation triple itself (injective, pure). -/
structure Addr where
  seed : Nat
  keyIndex : Nat
  security : Nat
deriving DecidableEq

/-- `address.GenerateAddress` as used with a successful outcome (input
selection discards the error result of the derivation). -/
def generateAddress (seed keyIndex security : Nat) : Addr :=
  ⟨seed, keyIndex, security⟩

/-- `store.StoredDepositRequest`: a persisted deposit request together with
its security level. -/
structure StoredDepositRequest where
  securityLevel : Nat
  timeoutAt : Option Int
  expectedAmount : Option Nat
  multiUse : Bool
deriving DecidableEq

/-- `deposit.Request` as passed to AllocateDepositRequest. -/
structure Request where
  timeoutAt : Option Int
  expectedAmount : Option Nat
  multiUse : Bool
deriving DecidableEq

/-- `deposit.Conditions`: the allocated address plus the originating request. -/
structure Conditions where
  address : Addr
  request : Request
deriving DecidableEq

/-- `api.Input`: a candidate spend source. -/
structure Input where
  address : Addr
  keyIndex : Nat
  balance : Nat
  security : Nat
deriving DecidableEq

/-- Error taxonomy of the account package: the sentinel errors plus wrapped
collaborator failures (`errors.Wrap(inner, ctx)` becomes `.wrap ctx inner`,
a raw collaborator error becomes `.external msg`). -/
inductive AccErr
  | notRunning
  | emptyRecipients
  | invalidAddress
  | timeoutNotSpecified
  | timeoutTooLow
  | insufficientBalance
  | external (msg : String)
  | wrap (ctx : String) (inner : AccErr)
deriving DecidableEq

/-- Result of a computation that can succeed, fail with an error, or panic
(Go `panic`). -/
inductive Outcome (α : Type)
  | ok (a : α)
  | err (e : AccErr)
  | panicked (msg : String)
deriving DecidableEq

/-- A transaction as seen by the consistency checker: its own hash, the hash
of the bundle it belongs to, the confirmation (persistence) flag, the moved
value and the touched address. -/
structure Tx where
  hash : Nat
  bundleHash : Nat
  persistence : Bool
  value : Int
  address : Addr
deriving DecidableEq

/-- A bundle returned by `GetBundlesFromAddresses`: a non-empty list of
transactions (the code indexes `bndls[i][0]`, so bundles are non-empty). -/
structure Bundle where
  head : Tx
  rest : List Tx
deriving DecidableEq

/-- All transactions of a bundle. -/
def Bundle.txs (b : Bundle) : List Tx := b.head :: b.rest

/-- Environment of one `defaultInputSelection` call: results of the
collaborator calls the selection performs.  `balanceOf` gives the balance the
batched `GetBalances` query reports for an address at the pinned milestone;
`balancesFail` makes the whole batched query fail. -/
structure SelEnv where
  depositRequests : Except String (List (Nat × StoredDepositRequest))
  milestone : Except String Nat
  now : Except String Int
  seed : Except String Nat
  balanceOf : Addr → Nat
  balancesFail : Option String
  getBundles : Addr → Except String (List Bundle)
  checkConsistency : Nat → Except String Bool

/-- The `isDepositToAddr` computation of `hasIncomingConsistentValueTransfer`:
whether some transaction of the bundle moves a strictly positive value into
exactly the given address. -/
def depositsTo (addr : Addr) (b : Bundle) : Bool :=
  b.txs.any fun t => decide (0 < t.value) && decide (t.address = addr)

/-- Inner loop of `hasIncomingConsistentValueTransfer`: walk the bundle list,
remembering the bundle hashes of confirmed bundles seen so far (`persisted`).
A confirmed bundle is recorded and skipped; an unconfirmed bundle whose
family was already recorded is skipped; a bundle that does not deposit a
positive value into `addr` is skipped; otherwise the ledger client checks
consistency of the bundle head transaction (an error aborts the whole
check, a consistent bundle returns true with an early break). -/
def hasIncomingLoop (env : SelEnv) (addr : Addr) :
    List Bundle → List Nat → Except String Bool
  | [], _ => .ok false
  | b :: restB, persisted =>
    if b.head.persistence then
      hasIncomingLoop env addr restB (b.head.bundleHash :: persisted)
    else if b.head.bundleHash ∈ persisted then
      hasIncomingLoop env addr restB persisted
    else if ¬ depositsTo addr b then
      hasIncomingLoop env addr restB persisted
    else
      match env.checkConsistency b.head.hash with
      | .error e => .error e
      | .ok true => .ok true
      | .ok false => hasIncomingLoop env addr restB persisted

/-- `account.hasIncomingConsistentValueTransfer`: fetch the bundles of the
address and run the loop with an initially empty persisted set. -/
def hasIncomingConsistentValueTransfer (env : SelEnv) (addr : Addr) :
    Except String Bool :=
  match env.getBundles addr with
  | .error e => .error e
  | .ok bndls => hasIncomingLoop env addr bndls []

/-- One entry of the primary/secondary selection lists: key index plus the
stored request (`selection` struct in the code), paired with its derived
address so that the positional balance lookup is by address. -/
structure Selection where
  keyIndex : Nat
  req : StoredDepositRequest
deriving DecidableEq

/-- The partition loop of `defaultInputSelection`: classify each deposit
request, in store order, as primary (remainder addresses; non-timed-out
single-use; non-timed-out multi-use with an expected amount) or secondary
(timed out); a multi-use request without expected amount that is not timed
out is skipped entirely.  A request with neither timeout nor expected amount
panics (`none` models the panic). -/
def partitionRequests (seed : Nat) (now : Int) :
    List (Nat × StoredDepositRequest) →
    Option (List (Addr × Selection) × List (Addr × Selection))
  | [] => some ([], [])
  | (keyIndex, req) :: rest =>
    match req.timeoutAt with
    | none =>
      match req.expectedAmount with
      | none => none
      | some _ =>
        (partitionRequests seed now rest).map fun (p, s) =>
          ((generateAddress seed keyIndex req.securityLevel, ⟨keyIndex, req⟩) :: p, s)
    | some t =>
      if t < now then
        (partitionRequests seed now rest).map fun (p, s) =>
          (p, (generateAddress seed keyIndex req.securityLevel, ⟨keyIndex, req⟩) :: s)
      else if req.multiUse && req.expectedAmount = none then
        partitionRequests seed now rest
      else
        (partitionRequests seed now rest).map fun (p, s) =>
          ((generateAddress seed keyIndex req.securityLevel, ⟨keyIndex, req⟩) :: p, s)

/-- Primary pass of `defaultInputSelection`: skip an address whose balance is
below its declared expected amount; otherwise add its balance to the running
sum; a zero balance is not recorded; otherwise in transfer mode record the
input, mark the index for removal, and break once the sum strictly exceeds
the target. -/
def primaryScan (balanceCheck : Bool) (transferValue : Nat) (balanceOf : Addr → Nat) :
    List (Addr × Selection) → Nat → List Input → List Nat →
    Nat × List Input × List Nat
  | [], sum, ins, rem => (sum, ins, rem)
  | (addr, s) :: rest, sum, ins, rem =>
    let bal := balanceOf addr
    let skip : Bool := match s.req.expectedAmount with
      | some ea => decide (bal < ea)
      | none => false
    if skip then primaryScan balanceCheck transferValue balanceOf rest sum ins rem
    else
      let sum1 := sum + bal
      if bal = 0 then primaryScan balanceCheck transferValue balanceOf rest sum1 ins rem
      else
        let ins1 := if balanceCheck then ins
          else ins ++ [⟨addr, s.keyIndex, bal, s.req.securityLevel⟩]
        let rem1 := if balanceCheck then rem else rem ++ [s.keyIndex]
        if transferValue < sum1 ∧ ¬ balanceCheck then (sum1, ins1, rem1)
        else primaryScan balanceCheck transferValue balanceOf rest sum1 ins1 rem1

/-- Secondary pass of `defaultInputSelection` over the timed-out addresses:
a zero-balance address is freed (marked for removal) only when the
incoming-consistency probe reports no transfer; a probe error or a reported
transfer leaves the address untouched and continues; a funded address is
marked, accumulated and recorded, breaking once past the target in transfer
mode. -/
def secondaryScan (env : SelEnv) (balanceCheck : Bool) (transferValue : Nat) :
    List (Addr × Selection) → Nat → List Input → List Nat →
    Nat × List Input × List Nat
  | [], sum, ins, rem => (sum, ins, rem)
  | (addr, s) :: rest, sum, ins, rem =>
    let bal := env.balanceOf addr
    if bal = 0 then
      match hasIncomingConsistentValueTransfer env addr with
      | .ok true => secondaryScan env balanceCheck transferValue rest sum ins rem
      | .error _ => secondaryScan env balanceCheck transferValue rest sum ins rem
      | .ok false =>
        let rem1 := if balanceCheck then rem else rem ++ [s.keyIndex]
        secondaryScan env balanceCheck transferValue rest sum ins rem1
    else
      let rem1 := if balanceCheck then rem else rem ++ [s.keyIndex]
      let sum1 := sum + bal
      let ins1 := if balanceCheck then ins
        else ins ++ [⟨addr, s.keyIndex, bal, s.req.securityLevel⟩]
      if transferValue < sum1 ∧ ¬ balanceCheck then (sum1, ins1, rem1)
      else secondaryScan env balanceCheck transferValue rest sum1 ins1 rem1

/-- `defaultInputSelection(acc, transferValue, balanceCheck)`: load the
deposit requests (none present: probe returns zero, transfer mode fails with
InsufficientBalance); pin the milestone; read the clock and the seed;
partition the requests (panicking on a request with neither timeout nor
expected amount); batch-query the balances; run the primary pass, then the
secondary pass when the sum is still short or a balance check is probing;
probe mode returns only the sum; a transfer-mode shortfall fails with
InsufficientBalance discarding inputs and removal marks. -/
def defaultInputSelection (env : SelEnv) (transferValue : Nat) (balanceCheck : Bool) :
    Outcome (Nat × List Input × List Nat) :=
  match env.depositRequests with
  | .error e => .err (.wrap ("unable to load account state for input selection") (.external e))
  | .ok depositRequests =>
    if depositRequests.isEmpty then
      if balanceCheck then .ok (0, [], [])
      else .err .insufficientBalance
    else
      match env.milestone with
      | .error e => .err (.wrap ("unable to fetch latest solid subtangle milestone for input selection") (.external e))
      | .ok _ =>
        match env.now with
        | .error e => .err (.wrap ("unable to get time for doing input selection") (.external e))
        | .ok now =>
          match env.seed with
          | .error e => .err (.wrap ("unable to get seed from seed provider for doing input selection") (.external e))
          | .ok seed =>
            match partitionRequests seed now depositRequests with
            | none => .panicked ("remainder address in system without expected amount")
            | some (primary, secondary) =>
              match env.balancesFail with
              | some e => .err (.wrap ("unable to fetch balances of primary selected addresses for input selection") (.external e))
              | none =>
                let r1 := primaryScan balanceCheck transferValue env.balanceOf primary 0 [] []
                let r2 :=
                  if r1.1 < transferValue ∨ balanceCheck then
                    secondaryScan env balanceCheck transferValue secondary r1.1 r1.2.1 r1.2.2
                  else r1
                if balanceCheck then .ok (r2.1, [], [])
                else if r2.1 < transferValue then .err .insufficientBalance
                else .ok r2

/-- The input list an outcome of input selection hands to the caller
(nothing on error or panic). -/
def inputsOf : Outcome (Nat × List Input × List Nat) → List Input
  | .ok (_, ins, _) => ins
  | _ => []

/-- The key indices an outcome of input selection marks for removal, i.e.
the indices the caller will free from the store (nothing on error or panic:
the removal marks of a failed selection are discarded). -/
def freedIndices : Outcome (Nat × List Input × List Nat) → List Nat
  | .ok (_, _, rem) => rem
  | _ => []

/-- Account state guarded by the per-account lock: the running flag, the
last issued key index, and the current settings snapshot (opaque here, only
its identity matters for the swap semantics). -/
structure AccountState where
  running : Bool
  lastKeyIndex : Nat
  settings : Nat
deriving DecidableEq

/-- Environment of one `allocateDepositRequest` call: seed provider result,
clock result, configured security level, and the failure switches of the
address derivation, the index write and the deposit-request write. -/
structure AllocEnv where
  seed : Except String Nat
  now : Except String Int
  securityLevel : Nat
  addrGenFail : Option String
  writeIndexFail : Option String
  addDepositRequestFail : Option String

/-- Inner `account.allocateDepositRequest`: fetch the seed, increment the
last key index, derive the address for the new index, persist the index,
persist the stored deposit request, return the conditions.  The increment
happens before any persistence and is kept in the returned state even when
address generation, the index write or the request write fails; only a seed
provider failure leaves the state untouched. -/
def allocateDepositRequest (env : AllocEnv) (st : AccountState) (req : Request) :
    AccountState × Except AccErr Conditions :=
  match env.seed with
  | .error e => (st, .error (.external e))
  | .ok seed =>
    let st1 : AccountState := { st with lastKeyIndex := st.lastKeyIndex + 1 }
    match env.addrGenFail with
    | some e => (st1, .error (.wrap ("unable to generate address in address gen. function") (.external e)))
    | none =>
      let addr := generateAddress seed st1.lastKeyIndex env.securityLevel
      match env.writeIndexFail with
      | some e => (st1, .error (.wrap ("unable to store next index in the store") (.external e)))
      | none =>
        match env.addDepositRequestFail with
        | some e => (st1, .error (.external e))
        | none => (st1, .ok ⟨addr, req⟩)

/-- Public `Account.AllocateDepositRequest`: reject when not running; reject
a nil timeout with TimeoutNotSpecified; read the clock; reject a timeout
earlier than five minutes (300 seconds) after the current time with
TimeoutTooLow; otherwise delegate to the inner allocator. -/
def AllocateDepositRequest (env : AllocEnv) (st : AccountState) (req : Request) :
    AccountState × Except AccErr Conditions :=
  if ¬ st.running then (st, .error .notRunning)
  else
    match req.timeoutAt with
    | none => (st, .error .timeoutNotSpecified)
    | some t =>
      match env.now with
      | .error e => (st, .error (.external e))
      | .ok now =>
        if t - 300 < now then (st, .error .timeoutTooLow)
        else allocateDepositRequest env st req

/-- `account.ID`: returns the identifier unconditionally (no lock, no
running-flag check in the source). -/
def ID (id : String) (_st : AccountState) : String := id

/-- Environment of `account.Start`: the loaded key index and the plugin
start failure switch. -/
structure StartEnv where
  loadAccountKeyIndex : Except String Nat
  pluginStartFail : Option String

/-- `account.Start`: load the persisted key index (failure aborts without
setting running), start the plugins (failure aborts with the key index
already adopted but running still false), then set the running flag.  The
source performs no running-flag admission check in Start. -/
def Start (env : StartEnv) (st : AccountState) : AccountState × Except AccErr Unit :=
  match env.loadAccountKeyIndex with
  | .error e => (st, .error (.wrap ("unable to read latest used key index in startup") (.external e)))
  | .ok keyIndex =>
    let st1 : AccountState := { st with lastKeyIndex := keyIndex }
    match env.pluginStartFail with
    | some e => (st1, .error (.wrap ("unable to start plugin") (.external e)))
    | none => ({ st1 with running := true }, .ok ())

/-- `account.Shutdown`: reject when not running; clear the running flag
first, then stop the plugins (failure surfaces after the flag is cleared),
then emit the shutdown notification. -/
def Shutdown (pluginShutdownFail : Option String) (st : AccountState) :
    AccountState × Except AccErr Unit :=
  if ¬ st.running then (st, .error .notRunning)
  else
    let st1 : AccountState := { st with running := false }
    match pluginShutdownFail with
    | some e => (st1, .error (.wrap ("unable to shutdown plugin in shutdown op.") (.external e)))
    | none => (st1, .ok ())

/-- `account.UpdateSettings`: reject when not running; stop the plugins under
the old settings (failure aborts before the swap); swap in a copy of the new
settings; restart the plugins (failure surfaces after the swap). -/
def UpdateSettings (pluginShutdownFail pluginStartFail : Option String)
    (newSettings : Nat) (st : AccountState) : AccountState × Except AccErr Unit :=
  if ¬ st.running then (st, .error .notRunning)
  else
    match pluginShutdownFail with
    | some e => (st, .error (.wrap ("unable to shutdown plugin in update settings op.") (.external e)))
    | none =>
      let st1 : AccountState := { st with settings := newSettings }
      match pluginStartFail with
      | some e => (st1, .error (.wrap ("unable to start plugin in update settings op.") (.external e)))
      | none => (st1, .ok ())

/-- `account.IsNew`: reject when not running, otherwise report the stored
is-new flag. -/
def IsNew (loadIsNew : Except String Bool) (st : AccountState) : Except AccErr Bool :=
  if ¬ st.running then .error .notRunning
  else
    match loadIsNew with
    | .error e => .error (.external e)
    | .ok b => .ok b

/-- Inner `account.availableBalance`: the probe-mode input selection sum. -/
def availableBalance (env : SelEnv) : Outcome Nat :=
  match defaultInputSelection env 0 true with
  | .ok (sum, _, _) => .ok sum
  | .err e => .err e
  | .panicked m => .panicked m

/-- `account.AvailableBalance`: reject when not running, otherwise the
probe-mode selection sum. -/
def AvailableBalance (env : SelEnv) (st : AccountState) : Outcome Nat :=
  if ¬ st.running then .err .notRunning
  else availableBalance env

/-- Environment of `account.totalBalance`. -/
structure TotalEnv where
  loadedRequests : Except String (List (Nat × StoredDepositRequest))
  milestone : Except String Nat
  seed : Except String Nat
  balanceOf : Addr → Nat
  balancesFail : Option String

/-- Inner `account.totalBalance`: sum the balances of every allocated
deposit address at the latest milestone, irrespective of eligibility. -/
def totalBalance (env : TotalEnv) : Except AccErr Nat :=
  match env.loadedRequests with
  | .error e => .error (.wrap ("unable to load account state for querying total balance") (.external e))
  | .ok reqs =>
    if reqs.isEmpty then .ok 0
    else
      match env.milestone with
      | .error e => .error (.wrap ("unable to fetch latest solid subtangle milestone for querying total balance") (.external e))
      | .ok _ =>
        match env.seed with
        | .error e => .error (.wrap ("unable to get seed from seed provider for computing total balance") (.external e))
        | .ok seed =>
          match env.balancesFail with
          | some e => .error (.wrap ("unable to fetch balances for computing total balance") (.external e))
          | none =>
            .ok ((reqs.map fun p => env.balanceOf (generateAddress seed p.1 p.2.securityLevel)).sum)

/-- `account.TotalBalance`: reject when not running, otherwise the gross
balance sum. -/
def TotalBalance (env : TotalEnv) (st : AccountState) : Except AccErr Nat :=
  if ¬ st.running then .error .notRunning
  else totalBalance env

/-- `bundle.Transfer` restricted to what the engine inspects: the recipient
address (trytes with checksum) and the value. -/
structure Recipient where
  address : String
  value : Nat
deriving DecidableEq

/-- `Recipients.Sum`. -/
def recipientsSum (targets : List Recipient) : Nat :=
  (targets.map Recipient.value).sum

/-- Modelled from the spec: the recipient-address format check
(`guards.IsTrytesOfExactLength`, external to the sources given here) — the
exact-length, checksum-bearing hash format: 81+9 = 90 tryte characters, each
either the digit 9 or an uppercase letter. -/
def isTrytesOfExactLength (s : String) (n : Nat) : Bool :=
  s.data.length = n && s.data.all fun c => c = '9' || ('A' ≤ c && c ≤ 'Z')

/-- Observable collaborator calls of the send pipeline, in call order:
persisting the pending transfer to the store, the store-and-broadcast call,
and the sending-transfer event emission. -/
inductive SendEvent
  | persistPending (tailHash : Nat) (freed : List Nat)
  | broadcast
  | emitSending
deriving DecidableEq

/-- Environment of one `account.send` call: the injected input-selection
strategy, the remainder allocation environment, and the results of the
pipeline collaborator calls in source order. -/
structure SendEnv where
  inputSelection : Nat → Bool → Outcome (Nat × List Input × List Nat)
  allocEnv : AllocEnv
  now : Except String Int
  seed : Except String Nat
  prepareTransfers : Except String (List Nat)
  getTransactionsToApprove : Except String (Nat × Nat)
  attachToTangle : Except String (List Nat)
  asTailTx : Except String Nat
  addPendingTransferFail : Option String
  storeAndBroadcast : Except String (List Nat)
  asBundle : Except String Nat

/-- Tail of `account.send` after input selection and remainder allocation:
clock, seed, PrepareTransfers, GetTransactionsToApprove, AttachToTangle,
tail-transaction extraction, AddPendingTransfer (persist the pending
transfer with the freed indices — an event), StoreAndBroadcast (an event),
final bundle conversion, and the sending-transfer event emission.  Each
failure aborts with the source's wrapping; the trace records the
store/broadcast/emit calls actually made. -/
def sendPipeline (env : SendEnv) (st : AccountState) (forRemoval : List Nat) :
    AccountState × Outcome Nat × List SendEvent :=
  match env.now with
  | .error e => (st, .err (.wrap ("unable to get current time in send op.") (.external e)), [])
  | .ok _ =>
  match env.seed with
  | .error e => (st, .err (.wrap ("unable to get seed from seed provider in send op.") (.external e)), [])
  | .ok _ =>
  match env.prepareTransfers with
  | .error e => (st, .err (.wrap ("unable to prepare transfers in send op.") (.external e)), [])
  | .ok _ =>
  match env.getTransactionsToApprove with
  | .error e => (st, .err (.wrap ("unable to GTTA in send op.") (.external e)), [])
  | .ok _ =>
  match env.attachToTangle with
  | .error e => (st, .err (.wrap ("performing PoW in send op. failed") (.external e)), [])
  | .ok _ =>
  match env.asTailTx with
  | .error e => (st, .err (.external e), [])
  | .ok tailHash =>
    match env.addPendingTransferFail with
    | some e =>
      (st, .err (.wrap ("unable to store pending transfer in send op.") (.external e)),
        [.persistPending tailHash forRemoval])
    | none =>
      match env.storeAndBroadcast with
      | .error e =>
        (st, .err (.wrap ("unable to store/broadcast bundle in send op.") (.external e)),
          [.persistPending tailHash forRemoval, .broadcast])
      | .ok _ =>
        match env.asBundle with
        | .error e =>
          (st, .err (.external e), [.persistPending tailHash forRemoval, .broadcast])
        | .ok bndl =>
          (st, .ok bndl, [.persistPending tailHash forRemoval, .broadcast, .emitSending])

/-- Inner `account.send`: for a positive transfer sum run the injected input
selection in transfer mode (its failure, wrapped, aborts); when the selected
sum strictly exceeds the requested value, allocate a remainder deposit
request (nil timeout, expected amount = surplus) whose failure aborts;
then run the pipeline with the freed indices. -/
def send (env : SendEnv) (st : AccountState) (targets : List Recipient) :
    AccountState × Outcome Nat × List SendEvent :=
  if recipientsSum targets = 0 then sendPipeline env st []
  else
    match env.inputSelection (recipientsSum targets) false with
    | .err e => (st, .err (.wrap ("failed to perform input selection in send op.") e), [])
    | .panicked m => (st, .panicked m, [])
    | .ok (sum, _, rem) =>
      if recipientsSum targets < sum then
        match allocateDepositRequest env.allocEnv st
            ⟨none, some (sum - recipientsSum targets), false⟩ with
        | (st1, .error e) =>
          (st1, .err (.wrap ("unable to generate remainder address in send op.") e), [])
        | (st1, .ok _) => sendPipeline env st1 rem
      else sendPipeline env st rem

/-- Public `account.Send`: reject when not running; reject an empty
recipient list; reject a recipient address failing the exact-length tryte
format; then delegate to the inner send. -/
def Send (env : SendEnv) (st : AccountState) (recipients : List Recipient) :
    AccountState × Outcome Nat × List SendEvent :=
  if ¬ st.running then (st, .err .notRunning, [])
  else if recipients.isEmpty then (st, .err .emptyRecipients, [])
  else if recipients.any (fun r => !isTrytesOfExactLength r.address 90) then
    (st, .err .invalidAddress, [])
  else send env st recipients

/-! ## Specification-side observation functions -/

/-- Length of the shortest prefix of a balance list whose sum, on top of the
running sum, strictly exceeds the target — the whole list when no prefix
does.  This is the prefix the greedy transfer-mode scan consumes. -/
def greedyLen (v : Nat) (sum : Nat) : List Nat → Nat
  | [] => 0
  | b :: rest => if v < sum + b then 1 else greedyLen v (sum + b) rest + 1

/-- The contribution of a primary entry to the probe sum: its balance,
unless an unreached expected amount skips the address. -/
def fundedBal (balanceOf : Addr → Nat) (p : Addr × Selection) : Nat :=
  match p.2.req.expectedAmount with
  | some ea => if balanceOf p.1 < ea then 0 else balanceOf p.1
  | none => balanceOf p.1

/-- Whether no broadcast call occurs before a pending-transfer persist call
in a send trace. -/
def persistPrecedesBroadcast : List SendEvent → Bool
  | [] => true
  | .broadcast :: _ => false
  | .persistPending _ _ :: _ => true
  | .emitSending :: rest => persistPrecedesBroadcast rest

/-- A whole allocation history of one account: run a list of
AllocateDepositRequest calls, each with its own collaborator environment and
request, threading the account state, and collect every key index the
allocator consumed (observable as the increase of the last key index). -/
def runAllocations (st : AccountState) :
    List (AllocEnv × Request) → AccountState × List Nat
  | [] => (st, [])
  | (env, req) :: rest =>
    let step := AllocateDepositRequest env st req
    let issued := if st.lastKeyIndex < step.1.lastKeyIndex then [step.1.lastKeyIndex] else []
    let r := runAllocations step.1 rest
    (r.1, issued ++ r.2)

/-- The consistency-checker behaviour the specification claims (written from
the spec words, for comparison with the source's `hasIncomingLoop`): some
bundle of the list is unconfirmed, belongs to a family that is confirmed
nowhere in the list (order-independent), deposits a positive value into the
address, and is reported consistent. -/
def claimedHasIncoming (cc : Nat → Except String Bool) (addr : Addr)
    (bndls : List Bundle) : Bool :=
  bndls.any fun b =>
    !b.head.persistence &&
    !(bndls.any fun c => c.head.persistence && decide (c.head.bundleHash = b.head.bundleHash)) &&
    depositsTo addr b &&
    (match cc b.head.hash with
     | .ok true => true
     | _ => false)

/-! ## Concrete example environments used by witnesses and counterexamples -/

/-- C1 counterexample environment: exactly the spec example — two deposit
requests with balances 40 and 70 (key indices 1 and 2), each with no timeout
and no expected amount. -/
def c1BadEnv : SelEnv :=
  ⟨.ok [(1, ⟨2, none, none, false⟩), (2, ⟨2, none, none, false⟩)],
   .ok 0, .ok 0, .ok 3,
   fun a => if a.keyIndex = 1 then 40 else 70, none,
   fun _ => .ok [], fun _ => .ok false⟩

/-- C1 witness environment: the spec example repaired — the two requests
carry a timeout in the future (time 1000, clock at 0), so they are primary
single-use addresses with balances 40 and 70. -/
def c1GoodEnv : SelEnv :=
  ⟨.ok [(1, ⟨2, some 1000, none, false⟩), (2, ⟨2, some 1000, none, false⟩)],
   .ok 0, .ok 0, .ok 3,
   fun a => if a.keyIndex = 1 then 40 else 70, none,
   fun _ => .ok [], fun _ => .ok false⟩

/-- C2 environment: a single timed-out (secondary) address with zero balance
and no pending incoming transfer; any transfer-mode target fails. -/
def c2Env : SelEnv :=
  ⟨.ok [(1, ⟨2, some 0, none, false⟩)],
   .ok 0, .ok 5, .ok 3,
   fun _ => 0, none,
   fun _ => .ok [], fun _ => .ok false⟩

/-- C5 witness environment: one primary address with expected amount 100 and
balance 40 (unfunded, skipped) and one timed-out address with balance 25. -/
def c5Env : SelEnv :=
  ⟨.ok [(1, ⟨2, some 900, some 100, false⟩), (2, ⟨2, some 0, none, false⟩)],
   .ok 0, .ok 5, .ok 3,
   fun a => if a.keyIndex = 1 then 40 else 25, none,
   fun _ => .ok [], fun _ => .ok false⟩

/-- Address under scrutiny in the C7 examples. -/
def c7Addr : Addr := ⟨0, 0, 0⟩

/-- C7: an unconfirmed bundle of family 7 depositing 5 into the address. -/
def c7Reattach : Bundle := ⟨⟨1, 7, false, 5, c7Addr⟩, []⟩

/-- C7: a confirmed bundle of the same family 7. -/
def c7Confirmed : Bundle := ⟨⟨2, 7, true, 0, c7Addr⟩, []⟩

/-- C7 counterexample environment: the unconfirmed reattachment is listed
before its confirmed sibling, and the ledger reports every transaction
consistent. -/
def c7Env : SelEnv :=
  ⟨.ok [], .ok 0, .ok 0, .ok 0,
   fun _ => 0, none,
   fun _ => .ok [c7Reattach, c7Confirmed], fun _ => .ok true⟩

/-- C7 witness environment: a single unconfirmed consistent deposit. -/
def c7GoodEnv : SelEnv :=
  ⟨.ok [], .ok 0, .ok 0, .ok 0,
   fun _ => 0, none,
   fun _ => .ok [c7Reattach], fun _ => .ok true⟩

/-- C8 witness environment: every address has zero balance and the bundle
lookup of the incoming-consistency probe fails. -/
def c8Env : SelEnv :=
  ⟨.ok [(1, ⟨2, some 0, none, false⟩)],
   .ok 0, .ok 5, .ok 3,
   fun _ => 0, none,
   fun _ => .error ("node down"), fun _ => .ok false⟩

/-- C10 witness environment: the store yields a deposit request with neither
timeout nor expected amount (violating the store invariant). -/
def c10Env : SelEnv :=
  ⟨.ok [(4, ⟨2, none, none, true⟩)],
   .ok 0, .ok 5, .ok 3,
   fun _ => 0, none,
   fun _ => .ok [], fun _ => .ok false⟩

/-- An allocation environment whose collaborators all succeed. -/
def allocEnvOk : AllocEnv := ⟨.ok 9, .ok 0, 2, none, none, none⟩

/-- An allocation environment whose index write fails. -/
def allocEnvWriteFail : AllocEnv := ⟨.ok 9, .ok 0, 2, none, some ("store down"), none⟩

/-- C9 witness environment: selection succeeds with one input and one freed
index, and the pending-transfer persistence fails. -/
def c9Env : SendEnv :=
  ⟨fun _ _ => .ok (110, [⟨⟨3, 1, 2⟩, 1, 110, 2⟩], [1]),
   allocEnvOk, .ok 0, .ok 9,
   .ok [11], .ok (21, 22), .ok [12], .ok 77,
   some ("db down"), .ok [13], .ok 99⟩

/-- A recipient with a well-formed 90-tryte checksummed address, value 100. -/
def c9Recipient : Recipient := ⟨String.mk (List.replicate 90 'A'), 100⟩

/-! ## Theorems -/

/-- C4: on a running account, AllocateDepositRequest rejects a nil timeout
with TimeoutNotSpecified; rejects a timeout less than 5 minutes (300 s)
after the injected clock's current time with TimeoutTooLow; and a timeout at
least 5 minutes in the future passes this validation (the call proceeds to
the inner allocator). -/
theorem C4_timeout_validation (env : AllocEnv) (st : AccountState)
    (req : Request) (now : Int)
    (hrun : st.running = true) (hnow : env.now = .ok now) :
    (req.timeoutAt = none →
      AllocateDepositRequest env st req = (st, .error .timeoutNotSpecified)) ∧
    (∀ t, req.timeoutAt = some t → t - 300 < now →
      AllocateDepositRequest env st req = (st, .error .timeoutTooLow)) ∧
    (∀ t, req.timeoutAt = some t → ¬ t - 300 < now →
      AllocateDepositRequest env st req = allocateDepositRequest env st req) := by
  refine ⟨?_, ?_, ?_⟩
  · intro h
    simp [AllocateDepositRequest, hrun, h]
  · intro t h hlow
    simp [AllocateDepositRequest, hrun, h, hnow, hlow]
  · intro t h hok
    simp [AllocateDepositRequest, hrun, h, hnow, hok]

/-- C4 witness: with the clock at 0, a timeout 2 minutes (120 s) in the
future fails with TimeoutTooLow, a nil timeout fails with
TimeoutNotSpecified, and a timeout exactly 5 minutes (300 s) in the future
passes validation. -/
theorem C4_witness :
    AllocateDepositRequest allocEnvOk ⟨true, 0, 0⟩ ⟨some 120, none, false⟩
      = (⟨true, 0, 0⟩, .error .timeoutTooLow) ∧
    AllocateDepositRequest allocEnvOk ⟨true, 0, 0⟩ ⟨none, some 5, false⟩
      = (⟨true, 0, 0⟩, .error .timeoutNotSpecified) ∧
    AllocateDepositRequest allocEnvOk ⟨true, 0, 0⟩ ⟨some 300, none, false⟩
      = allocateDepositRequest allocEnvOk ⟨true, 0, 0⟩ ⟨some 300, none, false⟩ :=
  ⟨(C4_timeout_validation allocEnvOk ⟨true, 0, 0⟩ ⟨some 120, none, false⟩ 0 rfl rfl).2.1
      120 rfl (by decide),
   (C4_timeout_validation allocEnvOk ⟨true, 0, 0⟩ ⟨none, some 5, false⟩ 0 rfl rfl).1 rfl,
   (C4_timeout_validation allocEnvOk ⟨true, 0, 0⟩ ⟨some 300, none, false⟩ 0 rfl rfl).2.2
      300 rfl (by decide)⟩

/-- C8: when a secondary (timed-out) address has zero balance and the
incoming-consistency probe fails with a collaborator error, the selection
scan treats it as if an incoming transfer existed: the address is not freed
(the removal accumulator is untouched), the error is not propagated, and the
scan continues with the remaining secondary addresses unchanged. -/
theorem C8_probe_error_conservative (env : SelEnv) (bc : Bool) (v : Nat)
    (addr : Addr) (s : Selection) (rest : List (Addr × Selection))
    (sum : Nat) (ins : List Input) (rem : List Nat) (e : String)
    (hbal : env.balanceOf addr = 0)
    (herr : hasIncomingConsistentValueTransfer env addr = .error e) :
    secondaryScan env bc v ((addr, s) :: rest) sum ins rem
      = secondaryScan env bc v rest sum ins rem := by
  simp [secondaryScan, hbal, herr]

/-- C8 witness: with every balance zero and a failing bundle lookup, the
scan over the one secondary address skips it and returns the accumulators
unchanged. -/
theorem C8_witness :
    c8Env.balanceOf ⟨3, 1, 2⟩ = 0 ∧
    hasIncomingConsistentValueTransfer c8Env ⟨3, 1, 2⟩ = .error ("node down") ∧
    secondaryScan c8Env false 10 [(⟨3, 1, 2⟩, ⟨1, ⟨2, some 0, none, false⟩⟩)] 0 [] []
      = secondaryScan c8Env false 10 [] 0 [] [] :=
  ⟨rfl, rfl,
   C8_probe_error_conservative c8Env false 10 ⟨3, 1, 2⟩ ⟨1, ⟨2, some 0, none, false⟩⟩ [] 0 [] []
     ("node down") rfl rfl⟩

/-- C6 counterexample: the claim says every public operation, Start and ID
included, rejects with NotRunning when the running flag is false; but on a
stopped account Start performs a full successful startup (loading key index
7 and setting running), and ID returns the identifier — neither rejects. -/
theorem C6_counterexample :
    Start ⟨.ok 7, none⟩ ⟨false, 0, 0⟩ = (⟨true, 7, 0⟩, .ok ()) ∧
    ID ("acc") ⟨false, 0, 0⟩ = ("acc") :=
  ⟨rfl, rfl⟩

/-- C6 amended: every public Account operation other than Start and ID —
Shutdown, Send, AllocateDepositRequest, AvailableBalance, TotalBalance,
IsNew, UpdateSettings — rejects with NotRunning whenever the running flag is
false (leaving the state unchanged); in particular Shutdown on an
already-stopped account fails with NotRunning.  ID returns the identifier
without consulting the flag, and Start performs startup regardless of it. -/
theorem C6_not_running_rejection (st : AccountState) (hst : st.running = false) :
    (∀ psf, Shutdown psf st = (st, .error .notRunning)) ∧
    (∀ env recipients, Send env st recipients = (st, .err .notRunning, [])) ∧
    (∀ env req, AllocateDepositRequest env st req = (st, .error .notRunning)) ∧
    (∀ env, AvailableBalance env st = .err .notRunning) ∧
    (∀ env, TotalBalance env st = .error .notRunning) ∧
    (∀ lin, IsNew lin st = .error .notRunning) ∧
    (∀ psf pstf ns, UpdateSettings psf pstf ns st = (st, .error .notRunning)) ∧
    (∀ id, ID id st = id) := by
  refine ⟨?_, ?_, ?_, ?_, ?_, ?_, ?_, ?_⟩ <;> intros <;>
    simp [Shutdown, Send, AllocateDepositRequest, AvailableBalance, TotalBalance,
      IsNew, UpdateSettings, ID, hst]

/-- C6 witness: on a concrete stopped account every gated operation rejects
with NotRunning; Shutdown on the already-stopped account fails with
NotRunning. -/
theorem C6_witness :
    Shutdown none ⟨false, 3, 1⟩ = (⟨false, 3, 1⟩, .error .notRunning) ∧
    AllocateDepositRequest allocEnvOk ⟨false, 3, 1⟩ ⟨some 900, none, false⟩
      = (⟨false, 3, 1⟩, .error .notRunning) ∧
    AvailableBalance c2Env ⟨false, 3, 1⟩ = .err .notRunning ∧
    IsNew (.ok true) ⟨false, 3, 1⟩ = .error .notRunning :=
  ⟨(C6_not_running_rejection ⟨false, 3, 1⟩ rfl).1 none,
   (C6_not_running_rejection ⟨false, 3, 1⟩ rfl).2.2.1 allocEnvOk ⟨some 900, none, false⟩,
   (C6_not_running_rejection ⟨false, 3, 1⟩ rfl).2.2.2.1 c2Env,
   (C6_not_running_rejection ⟨false, 3, 1⟩ rfl).2.2.2.2.2.1 (.ok true)⟩

/-- The public allocator changes the last key index by at most one, and any
change sets it to exactly its successor. -/
theorem allocate_lastKeyIndex_cases (env : AllocEnv) (st : AccountState) (req : Request) :
    (AllocateDepositRequest env st req).1.lastKeyIndex = st.lastKeyIndex ∨
    (AllocateDepositRequest env st req).1.lastKeyIndex = st.lastKeyIndex + 1 := by
  unfold AllocateDepositRequest allocateDepositRequest
  repeat' first
    | (left; rfl)
    | (right; rfl)
    | split

/-- The issued-index list of an allocation history is bounded below by the
starting index and above by the final index, and is strictly increasing. -/
theorem runAllocations_issued (l : List (AllocEnv × Request)) :
    ∀ st : AccountState,
      st.lastKeyIndex ≤ (runAllocations st l).1.lastKeyIndex ∧
      (∀ x ∈ (runAllocations st l).2,
        st.lastKeyIndex < x ∧ x ≤ (runAllocations st l).1.lastKeyIndex) ∧
      ((runAllocations st l).2).Pairwise (· < ·) := by
  induction l with
  | nil => intro st; simp [runAllocations]
  | cons hd tl ih =>
    intro st
    obtain ⟨env, req⟩ := hd
    have hcases := allocate_lastKeyIndex_cases env st req
    have hmono : st.lastKeyIndex ≤ (AllocateDepositRequest env st req).1.lastKeyIndex := by
      rcases hcases with h | h <;> omega
    obtain ⟨ih1, ih2, ih3⟩ := ih (AllocateDepositRequest env st req).1
    have hrun : runAllocations st ((env, req) :: tl)
        = ((runAllocations (AllocateDepositRequest env st req).1 tl).1,
           (if st.lastKeyIndex < (AllocateDepositRequest env st req).1.lastKeyIndex
              then [(AllocateDepositRequest env st req).1.lastKeyIndex] else []) ++
             (runAllocations (AllocateDepositRequest env st req).1 tl).2) := by
      simp [runAllocations]
    rw [hrun]
    refine ⟨le_trans hmono ih1, ?_, ?_⟩
    · intro x hx
      rcases List.mem_append.mp hx with h | h
      · split at h
        · simp only [List.mem_singleton] at h
          subst h
          exact ⟨by omega, ih1⟩
        · simp at h
      · exact ⟨lt_of_le_of_lt hmono (ih2 x h).1, (ih2 x h).2⟩
    · split
      · refine List.Pairwise.cons ?_ ih3
        intro x hx
        exact (ih2 x hx).1
      · simpa using ih3

/-- C3: (a) over any interleaved allocation history, the key indices the
allocator consumes are strictly increasing, hence never reused — a failed
call may skip an index but never hands one out twice; (b) once the seed is
available, the inner allocator increments the last key index before any
persistence, and the increment is kept even when address generation, the
index write or the deposit-request write fails. -/
theorem C3_indices_strictly_increasing :
    (∀ (st : AccountState) (l : List (AllocEnv × Request)),
      ((runAllocations st l).2).Pairwise (· < ·)) ∧
    (∀ (env : AllocEnv) (st : AccountState) (req : Request) (seed : Nat),
      env.seed = .ok seed →
      (allocateDepositRequest env st req).1.lastKeyIndex = st.lastKeyIndex + 1) := by
  constructor
  · intro st l
    exact (runAllocations_issued l st).2.2
  · intro env st req seed hseed
    unfold allocateDepositRequest
    rw [hseed]
    rcases env.addrGenFail with _ | e <;>
      rcases env.writeIndexFail with _ | e2 <;>
      rcases env.addDepositRequestFail with _ | e3 <;> simp

/-- C3 witness: a history of three calls — one successful, one whose index
write fails (consuming but skipping an index), one successful — issues the
strictly increasing indices 6, 7, 8; and the inner allocator with a failing
index write still moves the last key index from 5 to 6. -/
theorem C3_witness :
    ((runAllocations ⟨true, 5, 0⟩
        [(allocEnvOk, ⟨some 900, none, false⟩),
         (allocEnvWriteFail, ⟨some 900, none, false⟩),
         (allocEnvOk, ⟨some 900, none, false⟩)]).2).Pairwise (· < ·) ∧
    (allocateDepositRequest allocEnvWriteFail ⟨true, 5, 0⟩
        ⟨some 900, none, false⟩).1.lastKeyIndex = 6 :=
  ⟨C3_indices_strictly_increasing.1 ⟨true, 5, 0⟩ _,
   C3_indices_strictly_increasing.2 allocEnvWriteFail ⟨true, 5, 0⟩
     ⟨some 900, none, false⟩ 9 rfl⟩

/-- The partition loop aborts in the panic branch exactly when some stored
request has neither a timeout nor an expected amount. -/
theorem partitionRequests_eq_none_iff (seed : Nat) (now : Int)
    (reqs : List (Nat × StoredDepositRequest)) :
    partitionRequests seed now reqs = none ↔
    ∃ p ∈ reqs, p.2.timeoutAt = none ∧ p.2.expectedAmount = none := by
  induction reqs with
  | nil => simp [partitionRequests]
  | cons hd tl ih =>
    obtain ⟨k, r⟩ := hd
    rcases hto : r.timeoutAt with _ | t
    · rcases hea : r.expectedAmount with _ | ea
      · simp [partitionRequests, hto, hea]
      · simp [partitionRequests, hto, hea, Option.map_eq_none', ih]
    · simp only [partitionRequests, hto]
      split
      · simp [Option.map_eq_none', ih, hto]
      · split
        · simp [ih, hto]
        · simp [Option.map_eq_none', ih, hto]

/-- C10: whenever the store yields a deposit request with a nil timeout and
a nil expected amount (and the milestone, clock and seed collaborators
answer, which the code consults first), input selection panics — in probe
mode just as in transfer mode, so any caller crashes on such a store state;
conversely, when every stored request without a timeout carries an expected
amount, no call of input selection ever panics. -/
theorem C10_panics_without_expected_amount :
    (∀ (env : SelEnv) (v : Nat) (bc : Bool) reqs (m : Nat) (now : Int) (seed : Nat),
      env.depositRequests = .ok reqs → env.milestone = .ok m →
      env.now = .ok now → env.seed = .ok seed →
      (∃ p ∈ reqs, p.2.timeoutAt = none ∧ p.2.expectedAmount = none) →
      defaultInputSelection env v bc
        = .panicked ("remainder address in system without expected amount")) ∧
    (∀ (env : SelEnv) (v : Nat) (bc : Bool) (m : String),
      (∀ reqs, env.depositRequests = .ok reqs →
        ∀ p ∈ reqs, p.2.timeoutAt = none → p.2.expectedAmount ≠ none) →
      defaultInputSelection env v bc ≠ .panicked m) := by
  constructor
  · intro env v bc reqs m now seed hdr hms hnow hseed hex
    have hne : reqs.isEmpty = false := by
      obtain ⟨p, hp, -, -⟩ := hex
      rcases reqs with _ | ⟨a, l⟩
      · simp at hp
      · simp
    have hpart : partitionRequests seed now reqs = none :=
      (partitionRequests_eq_none_iff seed now reqs).mpr hex
    simp [defaultInputSelection, hdr, hms, hnow, hseed, hne, hpart]
  · intro env v bc m hinv
    rcases hdr : env.depositRequests with e | reqs
    · simp [defaultInputSelection, hdr]
    · rcases reqs with _ | ⟨q, qs⟩
      · simp only [defaultInputSelection, hdr, List.isEmpty_nil, if_true]
        split <;> simp
      · rcases hms : env.milestone with e | mm
        · simp [defaultInputSelection, hdr, hms]
        · rcases hnow : env.now with e | now
          · simp [defaultInputSelection, hdr, hms, hnow]
          · rcases hseed : env.seed with e | seed
            · simp [defaultInputSelection, hdr, hms, hnow, hseed]
            · rcases hpart : partitionRequests seed now (q :: qs) with _ | pr
              · obtain ⟨p, hp, h1, h2⟩ :=
                  (partitionRequests_eq_none_iff seed now (q :: qs)).mp hpart
                exact (hinv (q :: qs) hdr p hp h1 h2).elim
              · obtain ⟨primary, secondary⟩ := pr
                rcases hbf : env.balancesFail with _ | e
                · simp only [defaultInputSelection, hdr, hms, hnow, hseed, hpart, hbf,
                    List.isEmpty_cons]
                  repeat' split
                  all_goals simp
                · simp [defaultInputSelection, hdr, hms, hnow, hseed, hpart, hbf]

/-- C10 witness: for the concrete store state with a single multi-use
request of key index 4 carrying neither timeout nor expected amount, both a
probe-mode balance query and a transfer-mode selection panic. -/
theorem C10_witness :
    defaultInputSelection c10Env 5 true
      = .panicked ("remainder address in system without expected amount") ∧
    defaultInputSelection c10Env 5 false
      = .panicked ("remainder address in system without expected amount") :=
  ⟨C10_panics_without_expected_amount.1 c10Env 5 true [(4, ⟨2, none, none, true⟩)] 0 5 3
      rfl rfl rfl rfl ⟨(4, ⟨2, none, none, true⟩), by simp, rfl, rfl⟩,
   C10_panics_without_expected_amount.1 c10Env 5 false [(4, ⟨2, none, none, true⟩)] 0 5 3
      rfl rfl rfl rfl ⟨(4, ⟨2, none, none, true⟩), by simp, rfl, rfl⟩⟩

/-- In probe mode the primary pass scans every entry without early
termination, accumulates exactly the funded balances, and records nothing. -/
theorem primaryScan_probe (v : Nat) (bo : Addr → Nat) :
    ∀ (entries : List (Addr × Selection)) (sum : Nat) (ins : List Input) (rem : List Nat),
    primaryScan true v bo entries sum ins rem
      = (sum + (entries.map (fundedBal bo)).sum, ins, rem) := by
  intro entries
  induction entries with
  | nil => intro sum ins rem; simp [primaryScan]
  | cons hd tl ih =>
    intro sum ins rem
    obtain ⟨addr, s⟩ := hd
    simp only [primaryScan]
    rcases hea : s.req.expectedAmount with _ | ea
    · by_cases hz : bo addr = 0 <;>
        simp [hea, hz, ih, fundedBal, Nat.add_assoc]
    · by_cases hlt : bo addr < ea
      · simp [hea, hlt, ih, fundedBal, Nat.add_assoc]
      · by_cases hz : bo addr = 0 <;>
          simp [hea, hlt, hz, ih, fundedBal, Nat.add_assoc]

/-- In probe mode the secondary pass scans every entry without early
termination, accumulates every balance, and records nothing. -/
theorem secondaryScan_probe (env : SelEnv) (v : Nat) :
    ∀ (entries : List (Addr × Selection)) (sum : Nat) (ins : List Input) (rem : List Nat),
    secondaryScan env true v entries sum ins rem
      = (sum + (entries.map fun p => env.balanceOf p.1).sum, ins, rem) := by
  intro entries
  induction entries with
  | nil => intro sum ins rem; simp [secondaryScan]
  | cons hd tl ih =>
    intro sum ins rem
    obtain ⟨addr, s⟩ := hd
    simp only [secondaryScan]
    by_cases hz : env.balanceOf addr = 0
    · rcases hic : hasIncomingConsistentValueTransfer env addr with e | b
      · simp [hz, hic, ih, Nat.add_assoc]
      · rcases b <;> simp [hz, hic, ih, Nat.add_assoc]
    · simp [hz, ih, Nat.add_assoc]

/-- C5: probe-mode selection always returns an empty input list and an empty
removal list (so nothing is handed to the caller for store removal, on every
collaborator outcome), and whenever the collaborator reads succeed it
returns exactly the prospective sum of all funded primary balances plus all
secondary balances — the full scan with no early termination. -/
theorem C5_probe_is_pure :
    (∀ (env : SelEnv) (v : Nat),
      inputsOf (defaultInputSelection env v true) = [] ∧
      freedIndices (defaultInputSelection env v true) = []) ∧
    (∀ (env : SelEnv) (v : Nat) reqs (m : Nat) (now : Int) (seed : Nat)
        (primary secondary : List (Addr × Selection)),
      env.depositRequests = .ok reqs → env.milestone = .ok m →
      env.now = .ok now → env.seed = .ok seed → env.balancesFail = none →
      partitionRequests seed now reqs = some (primary, secondary) →
      defaultInputSelection env v true
        = .ok ((primary.map (fundedBal env.balanceOf)).sum
            + (secondary.map fun p => env.balanceOf p.1).sum, [], [])) := by
  constructor
  · intro env v
    unfold defaultInputSelection
    constructor <;> (repeat' split) <;> simp_all [inputsOf, freedIndices]
  · intro env v reqs m now seed primary secondary hdr hms hnow hseed hbf hpart
    rcases reqs with _ | ⟨q, qs⟩
    · have hps : ([] : List (Addr × Selection)) = primary ∧
          ([] : List (Addr × Selection)) = secondary := by
        have := hpart
        simp [partitionRequests] at this
        exact ⟨this.1.symm, this.2.symm⟩
      obtain ⟨h1, h2⟩ := hps
      simp [defaultInputSelection, hdr, ← h1, ← h2]
    · simp [defaultInputSelection, hdr, hms, hnow, hseed, hbf, hpart,
        primaryScan_probe, secondaryScan_probe, Nat.add_assoc]

/-- C5 witness: with one unfunded primary address (expected 100, balance 40)
and one timed-out address of balance 25, the probe returns sum 25 with empty
input and removal lists. -/
theorem C5_witness :
    inputsOf (defaultInputSelection c5Env 7 true) = [] ∧
    freedIndices (defaultInputSelection c5Env 7 true) = [] ∧
    defaultInputSelection c5Env 7 true = .ok (25, [], []) := by
  refine ⟨(C5_probe_is_pure.1 c5Env 7).1, (C5_probe_is_pure.1 c5Env 7).2, ?_⟩
  have h := C5_probe_is_pure.2 c5Env 7
      [(1, ⟨2, some 900, some 100, false⟩), (2, ⟨2, some 0, none, false⟩)]
      0 5 3
      [(⟨3, 1, 2⟩, ⟨1, ⟨2, some 900, some 100, false⟩⟩)]
      [(⟨3, 2, 2⟩, ⟨2, ⟨2, some 0, none, false⟩⟩)]
      rfl rfl rfl rfl rfl (by decide)
  simpa [c5Env, fundedBal] using h

/-- The secondary pass never decreases the accumulated sum. -/
theorem secondaryScan_sum_le (env : SelEnv) (bc : Bool) (v : Nat) :
    ∀ (entries : List (Addr × Selection)) (sum : Nat) (ins : List Input) (rem : List Nat),
    sum ≤ (secondaryScan env bc v entries sum ins rem).1 := by
  intro entries
  induction entries with
  | nil => intro sum ins rem; simp [secondaryScan]
  | cons hd tl ih =>
    intro sum ins rem
    obtain ⟨addr, s⟩ := hd
    simp only [secondaryScan]
    split
    · split
      · exact ih _ _ _
      · exact ih _ _ _
      · exact ih _ _ _
    · split
      · exact Nat.le_add_right _ _
      · exact le_trans (Nat.le_add_right _ _) (ih _ _ _)

/-- C2 counterexample: one timed-out address (key index 1) with zero balance
and no pending incoming transfer, target 10 — selection fails with
InsufficientBalance, and contrary to the claim the address is not freed:
the removal marks are discarded with the failure, the freed-index list the
caller receives is empty. -/
theorem C2_counterexample :
    defaultInputSelection c2Env 10 false = .err .insufficientBalance ∧
    freedIndices (defaultInputSelection c2Env 10 false) = [] ∧
    (1 : Nat) ∉ freedIndices (defaultInputSelection c2Env 10 false) :=
  ⟨rfl, rfl, by decide⟩

/-- C2 amended: when, after both the primary and the secondary pass in
transfer mode, the accumulated sum is still below the target, input
selection fails with InsufficientBalance and returns no inputs and no
removal indices — the zero-balance-and-unfunded secondary addresses
identified during the pass are marked internally but the marks are
discarded on failure, so nothing is freed from the store. -/
theorem C2_shortfall_frees_nothing (env : SelEnv) (v : Nat)
    (reqs : List (Nat × StoredDepositRequest)) (m : Nat) (now : Int) (seed : Nat)
    (primary secondary : List (Addr × Selection))
    (hdr : env.depositRequests = .ok reqs) (hms : env.milestone = .ok m)
    (hnow : env.now = .ok now) (hseed : env.seed = .ok seed)
    (hbf : env.balancesFail = none)
    (hpart : partitionRequests seed now reqs = some (primary, secondary))
    (hshort : (secondaryScan env false v secondary
        (primaryScan false v env.balanceOf primary 0 [] []).1
        (primaryScan false v env.balanceOf primary 0 [] []).2.1
        (primaryScan false v env.balanceOf primary 0 [] []).2.2).1 < v) :
    defaultInputSelection env v false = .err .insufficientBalance ∧
    freedIndices (defaultInputSelection env v false) = [] ∧
    inputsOf (defaultInputSelection env v false) = [] := by
  have hmono := secondaryScan_sum_le env false v secondary
      (primaryScan false v env.balanceOf primary 0 [] []).1
      (primaryScan false v env.balanceOf primary 0 [] []).2.1
      (primaryScan false v env.balanceOf primary 0 [] []).2.2
  have hp1 : (primaryScan false v env.balanceOf primary 0 [] []).1 < v :=
    lt_of_le_of_lt hmono hshort
  rcases reqs with _ | ⟨q, qs⟩
  · simp [defaultInputSelection, hdr, freedIndices, inputsOf]
  · refine ⟨?_, ?_, ?_⟩ <;>
      simp [defaultInputSelection, hdr, hms, hnow, hseed, hbf, hpart, hp1, hshort,
        freedIndices, inputsOf]

/-- C2 witness: the amended behaviour at the concrete counterexample state —
the shortfall hypothesis holds, selection fails with InsufficientBalance and
the freed-index list is empty. -/
theorem C2_witness :
    defaultInputSelection c2Env 10 false = .err .insufficientBalance ∧
    freedIndices (defaultInputSelection c2Env 10 false) = [] := by
  have h := C2_shortfall_frees_nothing c2Env 10 [(1, ⟨2, some 0, none, false⟩)] 0 5 3
      [] [(⟨3, 1, 2⟩, ⟨1, ⟨2, some 0, none, false⟩⟩)]
      rfl rfl rfl rfl rfl (by decide) (by decide)
  exact ⟨h.1, h.2.1⟩

/-- In every pipeline execution no broadcast call precedes the
pending-transfer persist call. -/
theorem sendPipeline_trace_ordered (env : SendEnv) (st : AccountState) (rem : List Nat) :
    persistPrecedesBroadcast (sendPipeline env st rem).2.2 = true := by
  unfold sendPipeline
  repeat' split
  all_goals simp [persistPrecedesBroadcast]

/-- When persisting the pending transfer fails, the pipeline performs no
broadcast, does not succeed, and — when the persist call was reached —
returns exactly the wrapped persistence error. -/
theorem sendPipeline_persist_fail (env : SendEnv) (st : AccountState) (rem : List Nat)
    (msg : String) (hfail : env.addPendingTransferFail = some msg) :
    SendEvent.broadcast ∉ (sendPipeline env st rem).2.2 ∧
    (∀ b, (sendPipeline env st rem).2.1 ≠ .ok b) ∧
    (∀ th fr, SendEvent.persistPending th fr ∈ (sendPipeline env st rem).2.2 →
      (sendPipeline env st rem).2.1
        = .err (.wrap ("unable to store pending transfer in send op.") (.external msg))) := by
  unfold sendPipeline
  repeat' split
  all_goals simp_all

/-- The inner send either aborts before the pipeline with an empty trace and
a non-successful outcome, or is exactly a pipeline run. -/
theorem send_trace_shape (env : SendEnv) (st : AccountState) (targets : List Recipient) :
    ((send env st targets).2.2 = [] ∧ (∀ b, (send env st targets).2.1 ≠ .ok b)) ∨
    (∃ st1 rem, send env st targets = sendPipeline env st1 rem) := by
  unfold send
  repeat' split
  · exact Or.inr ⟨st, [], rfl⟩
  · exact Or.inl ⟨rfl, by simp⟩
  · exact Or.inl ⟨rfl, by simp⟩
  · exact Or.inl ⟨rfl, by simp⟩
  · next st1 _ _ => exact Or.inr ⟨st1, _, rfl⟩
  · next rem _ => exact Or.inr ⟨st, _, rfl⟩

/-- C9: in every execution of Send the pending transfer (tail hash, raw
bytes, freed indices) is persisted to the store strictly before the bundle
is broadcast — no trace contains a broadcast call before the persist call —
and when persisting fails, Send aborts without attempting the broadcast,
never succeeds, and surfaces the wrapped persistence error whenever the
persist call was reached. -/
theorem C9_persist_before_broadcast (env : SendEnv) (st : AccountState)
    (recipients : List Recipient) :
    persistPrecedesBroadcast (Send env st recipients).2.2 = true ∧
    (∀ msg, env.addPendingTransferFail = some msg →
      SendEvent.broadcast ∉ (Send env st recipients).2.2 ∧
      (∀ b, (Send env st recipients).2.1 ≠ .ok b) ∧
      (∀ th fr, SendEvent.persistPending th fr ∈ (Send env st recipients).2.2 →
        (Send env st recipients).2.1
          = .err (.wrap ("unable to store pending transfer in send op.") (.external msg)))) := by
  have hs := send_trace_shape env st recipients
  constructor
  · unfold Send
    split
    · simp [persistPrecedesBroadcast]
    · split
      · simp [persistPrecedesBroadcast]
      · split
        · simp [persistPrecedesBroadcast]
        · rcases hs with ⟨h1, _⟩ | ⟨st1, rem, heq⟩
          · rw [h1]
            rfl
          · rw [heq]
            exact sendPipeline_trace_ordered env st1 rem
  · intro msg hm
    unfold Send
    split
    · simp
    · split
      · simp
      · split
        · simp
        · rcases hs with ⟨h1, h2⟩ | ⟨st1, rem, heq⟩
          · exact ⟨by simp [h1], h2, by simp [h1]⟩
          · rw [heq]
            exact sendPipeline_persist_fail env st1 rem msg hm

/-- C9 witness: in the concrete run whose pending-transfer persistence
fails, the trace is ordered, contains no broadcast, and Send returns the
wrapped persistence error. -/
theorem C9_witness :
    persistPrecedesBroadcast (Send c9Env ⟨true, 0, 0⟩ [c9Recipient]).2.2 = true ∧
    SendEvent.broadcast ∉ (Send c9Env ⟨true, 0, 0⟩ [c9Recipient]).2.2 ∧
    (Send c9Env ⟨true, 0, 0⟩ [c9Recipient]).2.1
      = .err (.wrap ("unable to store pending transfer in send op.")
          (.external ("db down"))) :=
  ⟨(C9_persist_before_broadcast c9Env ⟨true, 0, 0⟩ [c9Recipient]).1,
   ((C9_persist_before_broadcast c9Env ⟨true, 0, 0⟩ [c9Recipient]).2 ("db down") rfl).1,
   ((C9_persist_before_broadcast c9Env ⟨true, 0, 0⟩ [c9Recipient]).2 ("db down") rfl).2.2
     77 [1] (by
       have ht : (Send c9Env ⟨true, 0, 0⟩ [c9Recipient]).2.2
           = [SendEvent.persistPending 77 [1]] := rfl
       rw [ht]
       exact List.mem_singleton.mpr rfl)⟩

/-- When the balances cover the target, they still cover it after cutting
the list at the greedy prefix length. -/
theorem greedyLen_reaches (v : Nat) :
    ∀ (bals : List Nat) (sum : Nat), v ≤ sum + bals.sum →
    v ≤ sum + (bals.take (greedyLen v sum bals)).sum := by
  intro bals
  induction bals with
  | nil => intro sum h; simpa using h
  | cons b rest ih =>
    intro sum h
    simp only [greedyLen]
    split
    · next hlt => simpa using le_of_lt hlt
    · next hge =>
      have ihh := ih (sum + b) (by simp only [List.sum_cons] at h; omega)
      simpa [List.take_succ_cons, Nat.add_assoc] using ihh

/-- The transfer-mode primary pass over positively funded entries whose
expected amounts are reached consumes exactly the greedy prefix: it sums the
prefix balances, records the prefix entries as inputs and marks exactly the
prefix key indices for removal, stopping as soon as the sum exceeds the
target. -/
theorem primaryScan_greedy (v : Nat) (bo : Addr → Nat) :
    ∀ (entries : List (Addr × Selection)) (sum : Nat) (ins : List Input) (rem : List Nat),
    (∀ p ∈ entries, 0 < bo p.1 ∧
      ∀ ea, p.2.req.expectedAmount = some ea → ea ≤ bo p.1) →
    primaryScan false v bo entries sum ins rem
      = (sum + ((entries.map fun p => bo p.1).take
            (greedyLen v sum (entries.map fun p => bo p.1))).sum,
         ins ++ ((entries.take (greedyLen v sum (entries.map fun p => bo p.1))).map
            fun p => ⟨p.1, p.2.keyIndex, bo p.1, p.2.req.securityLevel⟩),
         rem ++ ((entries.take (greedyLen v sum (entries.map fun p => bo p.1))).map
            fun p => p.2.keyIndex)) := by
  intro entries
  induction entries with
  | nil => intro sum ins rem h; simp [primaryScan, greedyLen]
  | cons hd tl ih =>
    intro sum ins rem h
    obtain ⟨addr, s⟩ := hd
    obtain ⟨hpos, hea⟩ := h (addr, s) (List.mem_cons_self _ _)
    have htl : ∀ p ∈ tl, 0 < bo p.1 ∧
        ∀ ea, p.2.req.expectedAmount = some ea → ea ≤ bo p.1 :=
      fun p hp => h p (List.mem_cons_of_mem _ hp)
    have hz : ¬ bo (addr, s).1 = 0 := Nat.pos_iff_ne_zero.mp hpos
    have ihh := ih (sum + bo addr)
      (ins ++ [⟨addr, s.keyIndex, bo addr, s.req.securityLevel⟩])
      (rem ++ [s.keyIndex]) htl
    rcases hq : s.req.expectedAmount with _ | ea
    · by_cases hlt : v < sum + bo addr
      · simp [primaryScan, hq, hz, hlt, greedyLen, List.take_succ_cons]
      · simp [primaryScan, hq, hz, hlt, greedyLen, List.take_succ_cons, ihh,
          Nat.add_assoc]
    · have hnl : ¬ bo addr < ea := Nat.not_lt.mpr (hea ea hq)
      by_cases hlt : v < sum + bo addr
      · simp [primaryScan, hq, hnl, hz, hlt, greedyLen, List.take_succ_cons]
      · simp [primaryScan, hq, hnl, hz, hlt, greedyLen, List.take_succ_cons, ihh,
          Nat.add_assoc]

/-- C1 (amended general statement): for a store whose requests all classify
as primary, each with positive balance meeting its declared expected amount,
with total balance at least the target v, transfer-mode selection succeeds
and returns exactly the allocation-order greedy prefix — the shortest prefix
whose sum strictly exceeds v, or the whole collection when only v itself is
reached — as sum, inputs and freed key indices. -/
theorem C1_greedy_prefix (env : SelEnv) (v : Nat)
    (reqs : List (Nat × StoredDepositRequest)) (m : Nat) (now : Int) (seed : Nat)
    (primary : List (Addr × Selection))
    (hdr : env.depositRequests = .ok reqs) (hne : reqs ≠ [])
    (hms : env.milestone = .ok m) (hnow : env.now = .ok now)
    (hseed : env.seed = .ok seed) (hbf : env.balancesFail = none)
    (hpart : partitionRequests seed now reqs = some (primary, []))
    (hpos : ∀ p ∈ primary, 0 < env.balanceOf p.1 ∧
      ∀ ea, p.2.req.expectedAmount = some ea → ea ≤ env.balanceOf p.1)
    (htotal : v ≤ ((primary.map fun p => env.balanceOf p.1)).sum) :
    defaultInputSelection env v false
      = .ok (((primary.map fun p => env.balanceOf p.1).take
            (greedyLen v 0 (primary.map fun p => env.balanceOf p.1))).sum,
          (primary.take (greedyLen v 0 (primary.map fun p => env.balanceOf p.1))).map
            (fun p => ⟨p.1, p.2.keyIndex, env.balanceOf p.1, p.2.req.securityLevel⟩),
          (primary.take (greedyLen v 0 (primary.map fun p => env.balanceOf p.1))).map
            fun p => p.2.keyIndex) := by
  have hscan := primaryScan_greedy v env.balanceOf primary 0 [] [] hpos
  have hreach := greedyLen_reaches v (primary.map fun p => env.balanceOf p.1) 0
    (by simpa using htotal)
  have hnotlt : ¬ ((primary.map fun p => env.balanceOf p.1).take
      (greedyLen v 0 (primary.map fun p => env.balanceOf p.1))).sum < v :=
    Nat.not_lt.mpr (by simpa using hreach)
  rcases reqs with _ | ⟨q, qs⟩
  · exact absurd rfl hne
  · simp [defaultInputSelection, hdr, hms, hnow, hseed, hbf, hpart, hscan, hnotlt]

/-- C1 counterexample: at the claim's own example — requests with balances
40 and 70, each with no timeout and no expected amount, target 100 —
selection does not return inputs [A, B] with both freed: it panics (such a
request is treated as a remainder address and must carry an expected
amount), yielding no inputs and freeing nothing. -/
theorem C1_counterexample :
    defaultInputSelection c1BadEnv 100 false
      = .panicked ("remainder address in system without expected amount") ∧
    inputsOf (defaultInputSelection c1BadEnv 100 false) = [] ∧
    freedIndices (defaultInputSelection c1BadEnv 100 false) = [] :=
  ⟨rfl, rfl, rfl⟩

/-- C1 witness: the repaired example — A (index 1, balance 40) and B
(index 2, balance 70) with future timeouts, target 100 — where selection
returns inputs [A, B], sum 110, and marks both indices 1 and 2 as freed. -/
theorem C1_witness :
    defaultInputSelection c1GoodEnv 100 false
      = .ok (110, [⟨⟨3, 1, 2⟩, 1, 40, 2⟩, ⟨⟨3, 2, 2⟩, 2, 70, 2⟩], [1, 2]) := by
  have h := C1_greedy_prefix c1GoodEnv 100
      [(1, ⟨2, some 1000, none, false⟩), (2, ⟨2, some 1000, none, false⟩)] 0 0 3
      [(⟨3, 1, 2⟩, ⟨1, ⟨2, some 1000, none, false⟩⟩),
       (⟨3, 2, 2⟩, ⟨2, ⟨2, some 1000, none, false⟩⟩)]
      rfl (by simp) rfl rfl rfl rfl (by decide) (by decide) (by decide)
  exact h.trans (by decide)

/-- Order-aware characterization of the consistency-check loop: with an
error-free ledger client it reports an incoming transfer exactly when some
bundle of the list is unconfirmed, its family neither in the accumulated
persisted set nor confirmed *earlier in the list*, and it deposits a
positive value into the address and is reported consistent. -/
theorem hasIncomingLoop_ok_true_iff (env : SelEnv) (addr : Addr)
    (hcc : ∀ n e, env.checkConsistency n ≠ .error e) :
    ∀ (bndls : List Bundle) (persisted : List Nat),
    (hasIncomingLoop env addr bndls persisted = .ok true ↔
      ∃ pre b post, bndls = pre ++ b :: post ∧
        b.head.persistence = false ∧
        b.head.bundleHash ∉ persisted ∧
        (∀ c ∈ pre, c.head.persistence = true →
          c.head.bundleHash ≠ b.head.bundleHash) ∧
        depositsTo addr b = true ∧
        env.checkConsistency b.head.hash = .ok true) := by
  intro bndls
  induction bndls with
  | nil =>
    intro persisted
    constructor
    · intro h
      simp [hasIncomingLoop] at h
    · rintro ⟨pre, b, post, habs, -⟩
      exact absurd habs (by simp)
  | cons b0 rest ih =>
    intro persisted
    rcases hb0 : b0.head.persistence with _ | _
    · by_cases hmem : b0.head.bundleHash ∈ persisted
      · have hstep : hasIncomingLoop env addr (b0 :: rest) persisted
            = hasIncomingLoop env addr rest persisted := by
          simp [hasIncomingLoop, hb0, hmem]
        rw [hstep, ih persisted]
        constructor
        · rintro ⟨pre, b, post, heq, hbp, hnin, hpre, hdep, hcons⟩
          refine ⟨b0 :: pre, b, post, by rw [heq, List.cons_append], hbp, hnin, ?_, hdep, hcons⟩
          intro c hc hcp
          rcases List.mem_cons.mp hc with hceq | hcm
          · subst hceq
            rw [hb0] at hcp
            simp at hcp
          · exact hpre c hcm hcp
        · rintro ⟨pre, b, post, heq, hbp, hnin, hpre, hdep, hcons⟩
          rcases pre with _ | ⟨p0, pre'⟩
          · rw [List.nil_append] at heq
            injection heq with h1 h2
            subst h1
            exact absurd hmem hnin
          · rw [List.cons_append] at heq
            injection heq with h1 h2
            exact ⟨pre', b, post, h2, hbp, hnin,
              fun c hc hcp => hpre c (List.mem_cons_of_mem _ hc) hcp, hdep, hcons⟩
      · by_cases hdep0 : depositsTo addr b0 = true
        · rcases hcc0 : env.checkConsistency b0.head.hash with e | bb
          · exact absurd hcc0 (hcc _ e)
          · rcases bb with _ | _
            · have hstep : hasIncomingLoop env addr (b0 :: rest) persisted
                  = hasIncomingLoop env addr rest persisted := by
                simp [hasIncomingLoop, hb0, hmem, hdep0, hcc0]
              rw [hstep, ih persisted]
              constructor
              · rintro ⟨pre, b, post, heq, hbp, hnin, hpre, hdep, hcons⟩
                refine ⟨b0 :: pre, b, post, by rw [heq, List.cons_append], hbp, hnin, ?_,
                  hdep, hcons⟩
                intro c hc hcp
                rcases List.mem_cons.mp hc with hceq | hcm
                · subst hceq
                  rw [hb0] at hcp
                  simp at hcp
                · exact hpre c hcm hcp
              · rintro ⟨pre, b, post, heq, hbp, hnin, hpre, hdep, hcons⟩
                rcases pre with _ | ⟨p0, pre'⟩
                · rw [List.nil_append] at heq
                  injection heq with h1 h2
                  subst h1
                  rw [hcc0] at hcons
                  simp at hcons
                · rw [List.cons_append] at heq
                  injection heq with h1 h2
                  exact ⟨pre', b, post, h2, hbp, hnin,
                    fun c hc hcp => hpre c (List.mem_cons_of_mem _ hc) hcp, hdep, hcons⟩
            · have hstep : hasIncomingLoop env addr (b0 :: rest) persisted = .ok true := by
                simp [hasIncomingLoop, hb0, hmem, hdep0, hcc0]
              rw [hstep]
              constructor
              · intro _
                exact ⟨[], b0, rest, by simp, hb0, hmem, by simp, hdep0, hcc0⟩
              · intro _
                rfl
        · have hstep : hasIncomingLoop env addr (b0 :: rest) persisted
              = hasIncomingLoop env addr rest persisted := by
            simp [hasIncomingLoop, hb0, hmem, hdep0]
          rw [hstep, ih persisted]
          constructor
          · rintro ⟨pre, b, post, heq, hbp, hnin, hpre, hdep, hcons⟩
            refine ⟨b0 :: pre, b, post, by rw [heq, List.cons_append], hbp, hnin, ?_,
              hdep, hcons⟩
            intro c hc hcp
            rcases List.mem_cons.mp hc with hceq | hcm
            · subst hceq
              rw [hb0] at hcp
              simp at hcp
            · exact hpre c hcm hcp
          · rintro ⟨pre, b, post, heq, hbp, hnin, hpre, hdep, hcons⟩
            rcases pre with _ | ⟨p0, pre'⟩
            · rw [List.nil_append] at heq
              injection heq with h1 h2
              subst h1
              exact absurd hdep hdep0
            · rw [List.cons_append] at heq
              injection heq with h1 h2
              exact ⟨pre', b, post, h2, hbp, hnin,
                fun c hc hcp => hpre c (List.mem_cons_of_mem _ hc) hcp, hdep, hcons⟩
    · have hstep : hasIncomingLoop env addr (b0 :: rest) persisted
          = hasIncomingLoop env addr rest (b0.head.bundleHash :: persisted) := by
        simp [hasIncomingLoop, hb0]
      rw [hstep, ih (b0.head.bundleHash :: persisted)]
      constructor
      · rintro ⟨pre, b, post, heq, hbp, hnin, hpre, hdep, hcons⟩
        have hnin' := hnin
        simp only [List.mem_cons, not_or] at hnin'
        obtain ⟨hne, hnin2⟩ := hnin'
        refine ⟨b0 :: pre, b, post, by rw [heq, List.cons_append], hbp, hnin2, ?_,
          hdep, hcons⟩
        intro c hc hcp
        rcases List.mem_cons.mp hc with hceq | hcm
        · subst hceq
          exact fun hx => hne hx.symm
        · exact hpre c hcm hcp
      · rintro ⟨pre, b, post, heq, hbp, hnin, hpre, hdep, hcons⟩
        rcases pre with _ | ⟨p0, pre'⟩
        · rw [List.nil_append] at heq
          injection heq with h1 h2
          subst h1
          rw [hb0] at hbp
          simp at hbp
        · rw [List.cons_append] at heq
          injection heq with h1 h2
          refine ⟨pre', b, post, h2, hbp, ?_,
            fun c hc hcp => hpre c (List.mem_cons_of_mem _ hc) hcp, hdep, hcons⟩
          intro hx
          rcases List.mem_cons.mp hx with hxx | hxx
          · subst h1
            exact hpre b0 (List.mem_cons_self _ _) hb0 hxx.symm
          · exact hnin hxx

/-- C7 counterexample: the bundle list holds an unconfirmed reattachment of
family 7 (depositing 5 into the address, reported consistent) *before* its
confirmed sibling of the same family; the code returns true, although the
claim — a confirmed family is skipped entirely, including all of its
reattachments, regardless of listing order — demands false here (no bundle
outside the confirmed family qualifies). -/
theorem C7_counterexample :
    c7Env.getBundles c7Addr = .ok [c7Reattach, c7Confirmed] ∧
    hasIncomingConsistentValueTransfer c7Env c7Addr = .ok true ∧
    claimedHasIncoming c7Env.checkConsistency c7Addr [c7Reattach, c7Confirmed] = false :=
  ⟨rfl, rfl, rfl⟩

/-- C7 amended: with an error-free consistency client,
hasIncomingConsistentValueTransfer returns true if and only if some fetched
bundle is unconfirmed, deposits a strictly positive value into exactly the
address, is reported consistent, and is not preceded *in listing order* by a
confirmed bundle of the same family — a confirmed family suppresses only the
reattachments listed after its confirmed instance, so the result is
order-dependent. -/
theorem C7_incoming_transfer_iff (env : SelEnv) (addr : Addr) (bndls : List Bundle)
    (hb : env.getBundles addr = .ok bndls)
    (hcc : ∀ n e, env.checkConsistency n ≠ .error e) :
    (hasIncomingConsistentValueTransfer env addr = .ok true ↔
      ∃ pre b post, bndls = pre ++ b :: post ∧
        b.head.persistence = false ∧
        (∀ c ∈ pre, c.head.persistence = true →
          c.head.bundleHash ≠ b.head.bundleHash) ∧
        depositsTo addr b = true ∧
        env.checkConsistency b.head.hash = .ok true) := by
  have hunf : hasIncomingConsistentValueTransfer env addr
      = hasIncomingLoop env addr bndls [] := by
    simp [hasIncomingConsistentValueTransfer, hb]
  rw [hunf, hasIncomingLoop_ok_true_iff env addr hcc bndls []]
  constructor
  · rintro ⟨pre, b, post, h1, h2, -, h4, h5, h6⟩
    exact ⟨pre, b, post, h1, h2, h4, h5, h6⟩
  · rintro ⟨pre, b, post, h1, h2, h4, h5, h6⟩
    exact ⟨pre, b, post, h1, h2, by simp, h4, h5, h6⟩

/-- C7 witness: a single unconfirmed consistent deposit bundle makes the
checker report an incoming transfer, via the amended characterization. -/
theorem C7_witness :
    hasIncomingConsistentValueTransfer c7GoodEnv c7Addr = .ok true := by
  rw [C7_incoming_transfer_iff c7GoodEnv c7Addr [c7Reattach] rfl
    (fun n e => by simp [c7GoodEnv])]
  exact ⟨[], c7Reattach, [], rfl, rfl, by simp, rfl, rfl⟩

end IotaAccount
